import Mathlib

/-!
# Verification of the CT-HYB Monte Carlo driver (shallow embedding)

This file embeds, in Lean, the driver-level logic of the CT-HYB
hybridization-expansion impurity solver: the walker constructor checks,
the sweep loop of `HybridizationSimulation::update`, the sweep body
`do_one_sweep`, the adaptive-parameter update `update_MC_parameters`,
the global-update window handling, the flat-histogram weight adjustment,
and the `CorrelationWorm::get_operators` routine.

C++ `double` values are modelled as rationals (`ℚ`); wall-clock seconds
(`time_t`) as integers; machine integers as `ℤ`/`ℕ` (the quantities involved
are small and never overflow); exceptions as `Except String`.
-/

namespace CTHYB

/-- Floor of a rational, computed on its reduced fraction. -/
def ratFloor (q : ℚ) : ℤ := q.num / (q.den : ℤ)

/-- Ceiling of a rational, computed on its reduced fraction. -/
def ratCeil (q : ℚ) : ℤ := -ratFloor (-q)

/-- `static_cast<long>` of a C++ `double`: truncation toward zero. -/
def cToLong (q : ℚ) : ℤ := if 0 ≤ q then ratFloor q else ratCeil q

/-- The parameters consumed by the driver logic modelled here
(`HybridizationSimulation::define_parameters`). -/
structure Params where
  TIME_LIMIT : ℚ
  /-- `THERMALIZATION_TIME`; its declared default is the sentinel `-1`. -/
  THERMALIZATION_TIME : ℚ := -1
  /-- `FLAVORS = SPINS * SITES`. -/
  FLAVORS : ℕ
  /-- `UPDATE.MULTI_PAIR_INS_REM`. -/
  MULTI_PAIR_INS_REM : ℤ := 1
  /-- `UPDATE.N_GLOBAL_UPDATES`. -/
  N_GLOBAL_UPDATES : ℕ := 10
  /-- `MEASUREMENT.N_MEAS`. -/
  N_MEAS : ℕ := 10
  /-- `SLIDING_WINDOW.MAX`. -/
  SLIDING_WINDOW_MAX : ℤ
deriving Repr

/-- The constructor's resolution of `thermalization_time`
(`impurity.ipp` lines 90-92): a negative value is replaced by
`0.25 * parameters["TIME_LIMIT"].as<long>()` — note the cast of
`TIME_LIMIT` to `long` before the multiplication. -/
def resolveThermalizationTime (p : Params) : ℚ :=
  if p.THERMALIZATION_TIME < 0 then (1 / 4) * (cToLong p.TIME_LIMIT : ℚ)
  else p.THERMALIZATION_TIME

/-- What the walker constructor establishes, as far as this model needs:
the resolved thermalization time and the bound handed to
`sliding_window.init_stacks`. -/
structure ConstructedState where
  thermalization_time : ℚ
  init_stacks_bound : ℕ
deriving Repr

/-- The fallible part of `HybridizationSimulation::HybridizationSimulation`
(`impurity.ipp` lines 90-95, 107-114, 138-141): resolve the thermalization
time, throw if it exceeds `0.9 * TIME_LIMIT`, initialize the sliding-window
stacks with the hard-coded bound `10000` (the `SLIDING_WINDOW.MAX`
validation at lines 107-113 is commented out in the source), and throw if
`UPDATE.MULTI_PAIR_INS_REM < 1`. -/
def constructWalker (p : Params) : Except String ConstructedState :=
  let tt := resolveThermalizationTime p
  if tt > (9 / 10) * p.TIME_LIMIT then
    Except.error "TIME_LIMIT is too short in comparison with THERMALIZATION_TIME."
  else if p.MULTI_PAIR_INS_REM < 1 then
    Except.error "UPDATE.MULTI_PAIR_INS_REM is not valid."
  else
    Except.ok { thermalization_time := tt, init_stacks_bound := 10000 }

/-! ## Adaptive window size (`update_MC_parameters`, lines 622-661) -/

/-- Recording one perturbation order into the moving window of the last
(at most) 20 samples (`impurity.ipp` lines 630-634): push at the back,
pop the front when the length exceeds 20. -/
def pushPertOrder (hist : List ℚ) (x : ℚ) : List ℚ :=
  let h := hist ++ [x]
  if 20 < h.length then h.tail else h

/-- `min_expansion_order_ave` (lines 635-636): the arithmetic mean of the
recorded perturbation orders. -/
def minExpansionOrderAve (hist : List ℚ) : ℚ :=
  hist.sum / (hist.length : ℚ)

/-- The new `N_win_standard` as the code computes it (lines 639-648):
`max(SLIDING_WINDOW.MAX, min(ceil(avg / FLAVORS), SLIDING_WINDOW.MAX))`.
Note the first argument of the outer `max` in the source is
`par["SLIDING_WINDOW.MAX"]`, not `1`. -/
def newNwinStandard (FLAVORS : ℕ) (SLIDING_WINDOW_MAX : ℤ) (avg : ℚ) : ℤ :=
  max SLIDING_WINDOW_MAX
    (min (ratCeil (avg / (FLAVORS : ℚ))) SLIDING_WINDOW_MAX)

/-- The window size the specification prescribes:
`clip(ceil(avg / F), 1, SLIDING_WINDOW_MAX)`, written to be compared with
`newNwinStandard`. -/
def specClipNwinStandard (FLAVORS : ℕ) (SLIDING_WINDOW_MAX : ℤ) (avg : ℚ) : ℤ :=
  max 1 (min (ratCeil (avg / (FLAVORS : ℚ))) SLIDING_WINDOW_MAX)

/-! ## Sliding-window position model

`SlidingWindowManager` itself is not among the sources; only its call sites
are.  The position dynamics are modelled from the spec (§4.2): the window
slides over the partition of `[0,β)` one segment per
`move_window_to_next_position`, its right edge bouncing back and forth over
the positions `0, …, 2·n_window − 2`, and `0` is the canonical right-edge
position the driver must restore (§4.6's `4·n_win − 4` moves are exactly one
full round trip). -/

/-- The sliding-window state visible to the driver: the number of windows
and the right-edge position together with the current direction of travel. -/
structure WindowState where
  nWindow : ℕ
  posRightEdge : ℕ
  movingUp : Bool
deriving DecidableEq, Repr

/-- Modelled from the spec: `SlidingWindowManager::set_window_size(n, ops,
position, direction)` rebuilds both stacks for `n` windows with the given
right-edge position and direction of travel. -/
def set_window_size (n pos : ℕ) (up : Bool) : WindowState :=
  { nWindow := n, posRightEdge := pos, movingUp := up }

/-- The largest right-edge position for `n` windows: `2·n − 2`. -/
def topPos (n : ℕ) : ℕ := 2 * n - 2

/-- Modelled from the spec: `SlidingWindowManager::move_window_to_next_position`
advances the window by one segment, the right edge bouncing between `0` and
`2·n_window − 2`; with a single window there is nowhere to move. -/
def move_window_to_next_position (w : WindowState) : WindowState :=
  if w.nWindow ≤ 1 then w
  else if w.movingUp then
    if w.posRightEdge < topPos w.nWindow then
      { w with posRightEdge := w.posRightEdge + 1, movingUp := true }
    else
      { w with posRightEdge := w.posRightEdge - 1, movingUp := false }
  else
    if 0 < w.posRightEdge then
      { w with posRightEdge := w.posRightEdge - 1, movingUp := false }
    else
      { w with posRightEdge := w.posRightEdge + 1, movingUp := true }

/-- The window-state effect of `do_one_sweep` (lines 463-499): pick the
effective window size `max(N_win_standard / rank, 1)` for the drawn rank,
resize (to right-edge position `0`, direction `ITIME_LEFT`) when it differs
from the current size, then advance the window once per move iteration,
`max(4·n_win − 4, 1)` times. -/
def do_one_sweep_window (nWinStandard rankK : ℕ) (w : WindowState) : WindowState :=
  let current_n_window := max (nWinStandard / rankK) 1
  let w1 := if current_n_window ≠ w.nWindow then set_window_size current_n_window 0 true else w
  let num_move := max (4 * current_n_window - 4) 1
  move_window_to_next_position^[num_move] w1

/-- The window-size effect of `global_updates` (lines 552-620): save the
current number of windows, collapse to a single window, run the global
moves (which do not touch the window), and restore the saved size at
right-edge position `0`.  Returns the final state and the window size in
effect while the global moves ran. -/
def global_updates_window (w : WindowState) : WindowState × ℕ :=
  let n_sliding_window_bak := w.nWindow
  let collapsed := set_window_size 1 0 true
  (set_window_size n_sliding_window_bak 0 true, collapsed.nWindow)

/-! ## The per-sweep driver step (`update`, lines 181-233) -/

/-- The driver state the modelled claims depend on. -/
structure DriverState where
  sweeps : ℕ
  thermalized : Bool
  nWinStandard : ℕ
  pertOrderHist : List ℚ
  window : WindowState
deriving DecidableEq, Repr

/-- What one sweep iteration of `update` reports: whether `global_updates`
ran (and, if so, the window size in effect during it), and whether
`measure_every_step` was invoked. -/
structure SweepReport where
  ranGlobal : Bool
  collapsedWindowSize : Option ℕ
  measured : Bool
deriving DecidableEq, Repr

/-- `update_MC_parameters` (lines 622-661): throw a `logic_error` when
entered thermalized; otherwise record the perturbation order, recompute
`N_win_standard` (the C++ result is cast through `static_cast<std::size_t>`,
modelled by `Int.toNat`), and set `thermalized` when the elapsed wall-clock
seconds strictly exceed `thermalization_time`. -/
def update_MC_parameters (FLAVORS : ℕ) (SLIDING_WINDOW_MAX : ℤ)
    (thermalizationTime : ℚ) (pertOrder : ℚ) (elapsed : ℤ)
    (s : DriverState) : Except String DriverState :=
  if s.thermalized then
    Except.error "called update_MC_parameters after thermalized"
  else
    let hist := pushPertOrder s.pertOrderHist pertOrder
    let avg := minExpansionOrderAve hist
    Except.ok
      { s with
        nWinStandard := (newNwinStandard FLAVORS SLIDING_WINDOW_MAX avg).toNat
        pertOrderHist := hist
        thermalized := decide ((elapsed : ℚ) > thermalizationTime) }

/-- One iteration of the sweep loop of `update` (lines 189-232): increment
the sweep counter, run `do_one_sweep`, run `global_updates` when the counter
is a multiple of `UPDATE.N_GLOBAL_UPDATES`, call `update_MC_parameters` only
while not thermalized, and invoke `measure_every_step` exactly when the
walker is thermalized at that point.  The perturbation order of the current
configuration, the drawn insertion-removal rank, and the elapsed wall-clock
seconds enter as oracle inputs. -/
def updateSweepIter (FLAVORS : ℕ) (SLIDING_WINDOW_MAX : ℤ) (N_GLOBAL_UPDATES : ℕ)
    (thermalizationTime : ℚ) (pertOrder : ℚ) (rankK : ℕ) (elapsed : ℤ)
    (s : DriverState) : Except String (DriverState × SweepReport) :=
  let sweeps := s.sweeps + 1
  let w := do_one_sweep_window s.nWinStandard rankK s.window
  let ranGlobal : Bool := sweeps % N_GLOBAL_UPDATES = 0
  let globalResult := if ranGlobal then some (global_updates_window w) else none
  let w2 := match globalResult with
    | some r => r.1
    | none => w
  let s1 : DriverState := { s with sweeps := sweeps, window := w2 }
  let afterParams :=
    if !s1.thermalized then
      update_MC_parameters FLAVORS SLIDING_WINDOW_MAX thermalizationTime pertOrder elapsed s1
    else
      Except.ok s1
  afterParams.map fun s2 =>
    (s2, { ranGlobal := ranGlobal
           collapsedWindowSize := globalResult.map Prod.snd
           measured := s2.thermalized })

/-! ## The sweep body as an event trace (`do_one_sweep`, lines 463-499) -/

/-- The elementary updater invocations `do_one_sweep` issues. -/
inductive UpdateEvent
  | insRemOffDiag (k : ℕ)
  | insRemDiag (k : ℕ)
  | pairFlavor
  | singleOpShift
  | wormTransition
  | advanceWindow
deriving DecidableEq, Repr

/-- `for (i = 0; i < n; ++i) { emit body; }` — a C++ counting loop that
appends `body` once per iteration. -/
def cppLoop (body : List UpdateEvent) : ℕ → List UpdateEvent
  | 0 => []
  | n + 1 => cppLoop body n ++ body

/-- The sequence of updater invocations of one `do_one_sweep` call
(lines 463-499), given the drawn rank `rankK`: per move iteration, `FLAVORS`
repetitions of off-diagonal insertion-removal, diagonal insertion-removal
and pair-flavor update, then `FLAVORS * rankK` single-operator shifts, then
one `transition_between_config_spaces` sub-step, then one window advance. -/
def do_one_sweep_events (FLAVORS nWinStandard rankK : ℕ) : List UpdateEvent :=
  let current_n_window := max (nWinStandard / rankK) 1
  let num_move := max (4 * current_n_window - 4) 1
  cppLoop
    (cppLoop [.insRemOffDiag rankK, .insRemDiag rankK, .pairFlavor] FLAVORS
      ++ cppLoop [.singleOpShift] (FLAVORS * rankK)
      ++ [.wormTransition, .advanceWindow])
    num_move

/-! ## Flat-histogram bookkeeping (`prepare_for_measurement` lines 695-703,
`adjust_worm_space_weight` lines 762-786) -/

/-- The flat-histogram reweighter state this model needs: whether learning
is still running, whether the flatness criterion has been reached, and the
learned weights. -/
structure FlatHistogram where
  learning : Bool
  converged : Bool
  weights : List ℚ
deriving DecidableEq, Repr

/-- Modelled from the spec: `FlatHistogramConfigSpace::finish_learning`
(not among the sources) stops learning and freezes the weights at their
current values (§4.8: "freeze `w` at its current value"). -/
def finish_learning (fh : FlatHistogram) : FlatHistogram :=
  { fh with learning := false }

/-- The flat-histogram part of `prepare_for_measurement` (lines 695-703):
when a reweighter exists, warn exactly if it has not converged, and call
`finish_learning` unconditionally.  Returns whether the warning was emitted
and the resulting reweighter state. -/
def prepare_for_measurement_fh : Option FlatHistogram → Bool × Option FlatHistogram
  | none => (false, none)
  | some fh => (!fh.converged, some (finish_learning fh))

/-- `adjust_worm_space_weight` (lines 762-786), tracking the configuration-
space weight vector `config_space_extra_weight` (of length
`worm_types.size() + 1`): return unchanged unless a reweighter exists and
the walker is not thermalized; otherwise set entry `0` to `1` and entry
`w + 1` to the reweighter's `weight_ratio(w + 1, 0)` for each worm space. -/
def adjust_worm_space_weight (thermalized : Bool) (weightRatio : ℕ → ℚ)
    (nWormTypes : ℕ) :
    Option FlatHistogram → List ℚ → List ℚ
  | none, w => w
  | some _, w =>
    if thermalized then w
    else 1 :: (List.range nWormTypes).map (fun i => weightRatio (i + 1))

/-! ## `CorrelationWorm::get_operators` (worm.ipp lines 3-21) -/

/-- The operator time of the data model: an imaginary-time point together
with the integer tie-breaker (`small_idx`). -/
structure OperatorTime where
  time : ℚ
  small_idx : ℤ
deriving DecidableEq, Repr

/-- Creation/annihilation tag. -/
inductive OpKind
  | CREATION_OP
  | ANNIHILATION_OP
deriving DecidableEq, Repr

/-- The elementary operator `psi(OperatorTime, kind, flavor)`. -/
structure Psi where
  ot : OperatorTime
  kind : OpKind
  flavor : ℕ
deriving DecidableEq, Repr

/-- The `(time, tie_breaker)` key an operator occupies. -/
def opTimeKey (ps : Psi) : ℚ × ℤ := (ps.ot.time, ps.ot.small_idx)

/-- `CorrelationWorm<NumTimes>::get_operators` (worm.ipp lines 3-21): for
each time index `it`, push a creation operator at
`OperatorTime(times_[it], 200*(it+1))` with flavor `flavors_[2*it]`, then an
annihilation operator at `OperatorTime(times_[it], 100*(it+1))` with flavor
`flavors_[2*it+1]`. -/
def get_operators (numTimes : ℕ) (times : ℕ → ℚ) (flavors : ℕ → ℕ) : List Psi :=
  (List.range numTimes).flatMap fun it =>
    [ { ot := { time := times it, small_idx := 200 * ((it : ℤ) + 1) }
        kind := .CREATION_OP, flavor := flavors (2 * it) },
      { ot := { time := times it, small_idx := 100 * ((it : ℤ) + 1) }
        kind := .ANNIHILATION_OP, flavor := flavors (2 * it + 1) } ]

/-- The operator `get_operators` places at list position `j`: the creation
member of pair `j / 2` at even `j`, the annihilation member at odd `j`. -/
def wormOpAt (times : ℕ → ℚ) (flavors : ℕ → ℕ) (j : ℕ) : Psi :=
  if j % 2 = 0 then
    { ot := { time := times (j / 2), small_idx := 200 * ((j / 2 : ℕ) + 1 : ℤ) }
      kind := .CREATION_OP, flavor := flavors (2 * (j / 2)) }
  else
    { ot := { time := times (j / 2), small_idx := 100 * ((j / 2 : ℕ) + 1 : ℤ) }
      kind := .ANNIHILATION_OP, flavor := flavors (2 * (j / 2) + 1) }

/-- Concrete coincident-time input for `CorrelationWorm<2>`. -/
def c8timesEqual : ℕ → ℚ := fun _ => 0

/-- Concrete pairwise-distinct times for `CorrelationWorm<2>`. -/
def c8timesDistinct : ℕ → ℚ := fun i => (i : ℚ)

/-- Concrete flavor assignment for the worm examples. -/
def c8flavors : ℕ → ℕ := fun j => j

/-! ## Theorems -/

/-- The mean of twenty zero samples is zero. -/
theorem minExpansionOrderAve_zeros : minExpansionOrderAve (List.replicate 20 (0 : ℚ)) = 0 := by
  simp [minExpansionOrderAve]

/-- C1 (code bug).  The source computes
`max(SLIDING_WINDOW.MAX, min(ceil(avg/FLAVORS), SLIDING_WINDOW.MAX))`, whose
first `max` argument should be `1`: the result is always `SLIDING_WINDOW.MAX`
and the inner `min` is dead code.  With one flavor, `SLIDING_WINDOW.MAX = 5`
and the last twenty recorded perturbation orders all zero, the code yields
`5` where the specified `clip(ceil(avg/F), 1, SLIDING_WINDOW_MAX)` yields
`1`. -/
theorem C1_nwin_always_max :
    (∀ (F : ℕ) (smax : ℤ) (avg : ℚ), newNwinStandard F smax avg = smax) ∧
    newNwinStandard 1 5 (minExpansionOrderAve (List.replicate 20 (0 : ℚ))) = 5 ∧
    specClipNwinStandard 1 5 (minExpansionOrderAve (List.replicate 20 (0 : ℚ))) = 1 := by
  refine ⟨fun F smax avg => max_eq_left (min_le_right _ _), ?_, ?_⟩
  · rw [minExpansionOrderAve_zeros]
    norm_num [newNwinStandard, ratCeil, ratFloor]
  · rw [minExpansionOrderAve_zeros]
    norm_num [specClipNwinStandard, ratCeil, ratFloor]

/-- C6 (counterexample).  With `TIME_LIMIT = 5/2` and the default
sentinel, the constructor sets `thermalization_time` to
`0.25 * static_cast<long>(5/2) = 1/2`, not to `0.25 * (5/2) = 5/8` as the
claim states. -/
theorem C6_counterexample :
    resolveThermalizationTime
        { TIME_LIMIT := 5 / 2, FLAVORS := 2, SLIDING_WINDOW_MAX := 5 } = 1 / 2 ∧
    (1 / 4 : ℚ) * (5 / 2) = 5 / 8 ∧ (1 / 2 : ℚ) ≠ 5 / 8 := by
  norm_num [resolveThermalizationTime, cToLong, ratFloor]

/-- C6 (amended).  At construction, a negative (sentinel)
`THERMALIZATION_TIME` is replaced by `0.25 * TIME_LIMIT` with `TIME_LIMIT`
first truncated to a C++ `long`; a non-negative value is kept.  Construction
throws "TIME_LIMIT is too short …" exactly when the resolved thermalization
time exceeds `0.9 * TIME_LIMIT`, throws "UPDATE.MULTI_PAIR_INS_REM is not
valid." exactly when that check passes and `UPDATE.MULTI_PAIR_INS_REM < 1`,
and succeeds exactly when neither condition holds. -/
theorem C6_amended_construction (p : Params) :
    (p.THERMALIZATION_TIME < 0 →
      resolveThermalizationTime p = 1 / 4 * (cToLong p.TIME_LIMIT : ℚ)) ∧
    (0 ≤ p.THERMALIZATION_TIME →
      resolveThermalizationTime p = p.THERMALIZATION_TIME) ∧
    (constructWalker p =
        Except.error "TIME_LIMIT is too short in comparison with THERMALIZATION_TIME." ↔
      resolveThermalizationTime p > 9 / 10 * p.TIME_LIMIT) ∧
    (constructWalker p = Except.error "UPDATE.MULTI_PAIR_INS_REM is not valid." ↔
      ¬ resolveThermalizationTime p > 9 / 10 * p.TIME_LIMIT ∧ p.MULTI_PAIR_INS_REM < 1) ∧
    ((constructWalker p).isOk = true ↔
      ¬ resolveThermalizationTime p > 9 / 10 * p.TIME_LIMIT ∧
        ¬ p.MULTI_PAIR_INS_REM < 1) := by
  refine ⟨fun h => by simp [resolveThermalizationTime, h], fun h => by
    simp [resolveThermalizationTime, not_lt.mpr h], ?_, ?_, ?_⟩ <;>
    · by_cases h1 : resolveThermalizationTime p > 9 / 10 * p.TIME_LIMIT
      · have hc : constructWalker p =
            Except.error "TIME_LIMIT is too short in comparison with THERMALIZATION_TIME." := by
          simp only [constructWalker, resolveThermalizationTime] at h1 ⊢
          rw [if_pos h1]
        simp [hc, h1, Except.isOk, Except.toBool]
      · by_cases h2 : p.MULTI_PAIR_INS_REM < 1
        · have hc : constructWalker p =
              Except.error "UPDATE.MULTI_PAIR_INS_REM is not valid." := by
            simp only [constructWalker, resolveThermalizationTime] at h1 ⊢
            rw [if_neg h1, if_pos h2]
          simp [hc, h1, h2, Except.isOk, Except.toBool]
        · have hc : constructWalker p =
              Except.ok { thermalization_time := resolveThermalizationTime p,
                          init_stacks_bound := 10000 } := by
            simp only [constructWalker, resolveThermalizationTime] at h1 ⊢
            rw [if_neg h1, if_neg h2]
          simp [hc, h1, h2, Except.isOk, Except.toBool]

/-- C6 (witness).  The amendment evaluated at `TIME_LIMIT = 10` with the
sentinel default: the resolved thermalization time is `0.25 * 10`. -/
theorem C6_amended_construction_witness :
    resolveThermalizationTime { TIME_LIMIT := 10, FLAVORS := 1, SLIDING_WINDOW_MAX := 5 } =
      1 / 4 * (cToLong (10 : ℚ) : ℚ) :=
  (C6_amended_construction { TIME_LIMIT := 10, FLAVORS := 1, SLIDING_WINDOW_MAX := 5 }).1
    (by norm_num)

/-- C9.  Every successful construction initializes the sliding-window
stacks with the hard-coded bound `10000`, and the whole construction outcome
is independent of the `SLIDING_WINDOW.MAX` parameter — its validation block
is commented out in the source. -/
theorem C9_init_stacks_hardcoded :
    (∀ (p : Params) (s : ConstructedState),
      constructWalker p = Except.ok s → s.init_stacks_bound = 10000) ∧
    (∀ (p : Params) (m₁ m₂ : ℤ),
      constructWalker { p with SLIDING_WINDOW_MAX := m₁ } =
        constructWalker { p with SLIDING_WINDOW_MAX := m₂ }) := by
  constructor
  · intro p s h
    simp only [constructWalker] at h
    split_ifs at h
    injection h with h'
    rw [← h']
  · intro p m₁ m₂
    rfl

/-- C9 (witness).  A concrete successful construction carries the bound
`10000`. -/
theorem C9_init_stacks_hardcoded_witness :
    ({ thermalization_time := 5 / 2, init_stacks_bound := 10000 } :
        ConstructedState).init_stacks_bound = 10000 :=
  C9_init_stacks_hardcoded.1 { TIME_LIMIT := 10, FLAVORS := 1, SLIDING_WINDOW_MAX := 5 }
    { thermalization_time := 5 / 2, init_stacks_bound := 10000 }
    (by norm_num [constructWalker, resolveThermalizationTime, cToLong, ratFloor])

/-- C7.  When the flat-histogram reweighter exists,
`prepare_for_measurement` warns exactly if it has not converged and finishes
learning with the weights frozen at their current values (no reweighter:
nothing happens); and whenever `adjust_worm_space_weight` actually updates
the configuration-space weights (reweighter present, not yet thermalized),
the weight of the Z-function space, entry `0`, is set to exactly `1`. -/
theorem C7_freeze_and_z_weight :
    (∀ fh : FlatHistogram,
      (prepare_for_measurement_fh (some fh)).1 = !fh.converged ∧
      (prepare_for_measurement_fh (some fh)).2 =
        some { learning := false, converged := fh.converged, weights := fh.weights }) ∧
    prepare_for_measurement_fh none = (false, none) ∧
    (∀ (weightRatio : ℕ → ℚ) (nWormTypes : ℕ) (fh : FlatHistogram) (w : List ℚ),
      (adjust_worm_space_weight false weightRatio nWormTypes (some fh) w).head? = some 1) ∧
    (∀ (thermalized : Bool) (weightRatio : ℕ → ℚ) (nWormTypes : ℕ) (fh : FlatHistogram)
        (w : List ℚ),
      adjust_worm_space_weight thermalized weightRatio nWormTypes (some fh) w =
        if thermalized then w
        else 1 :: (List.range nWormTypes).map (fun i => weightRatio (i + 1))) ∧
    (∀ (thermalized : Bool) (weightRatio : ℕ → ℚ) (nWormTypes : ℕ) (w : List ℚ),
      adjust_worm_space_weight thermalized weightRatio nWormTypes none w = w) := by
  refine ⟨fun fh => ⟨rfl, rfl⟩, rfl, fun r n fh w => ?_, fun t r n fh w => rfl,
    fun t r n w => rfl⟩
  simp [adjust_worm_space_weight]

/-- C10.  `update_MC_parameters` raises its `logic_error` exactly when
entered with `thermalized == true`; since the sweep loop calls it only when
`is_thermalized()` is false, a full `update()` iteration never raises it. -/
theorem C10_guarded_logic_error :
    (∀ (F : ℕ) (smax : ℤ) (tt po : ℚ) (el : ℤ) (s : DriverState),
      update_MC_parameters F smax tt po el s =
        Except.error "called update_MC_parameters after thermalized" ↔
      s.thermalized = true) ∧
    (∀ (F : ℕ) (smax : ℤ) (ng : ℕ) (tt po : ℚ) (rk : ℕ) (el : ℤ) (s : DriverState),
      (updateSweepIter F smax ng tt po rk el s).isOk = true) := by
  constructor
  · intro F smax tt po el s
    cases hth : s.thermalized <;> simp [update_MC_parameters, hth]
  · intro F smax ng tt po rk el s
    cases hth : s.thermalized <;>
      simp [updateSweepIter, update_MC_parameters, hth, Except.isOk, Except.toBool,
        Except.map]

/-- Normal form of one sweep iteration of `update`: it always succeeds, the
thermalized flag is OR-ed with the strict wall-clock comparison, the
adaptive parameters are touched only while not yet thermalized, the window
is what `do_one_sweep` left unless `global_updates` ran and reset it, and
`measure_every_step` ran iff the walker is thermalized afterwards. -/
theorem updateSweepIter_eq (F : ℕ) (smax : ℤ) (ng : ℕ) (tt po : ℚ) (rk : ℕ)
    (el : ℤ) (s : DriverState) :
    updateSweepIter F smax ng tt po rk el s =
      Except.ok
        ({ sweeps := s.sweeps + 1
           thermalized := s.thermalized || decide ((el : ℚ) > tt)
           nWinStandard :=
             if s.thermalized then s.nWinStandard
             else (newNwinStandard F smax
               (minExpansionOrderAve (pushPertOrder s.pertOrderHist po))).toNat
           pertOrderHist :=
             if s.thermalized then s.pertOrderHist
             else pushPertOrder s.pertOrderHist po
           window :=
             if (s.sweeps + 1) % ng = 0 then
               { nWindow := (do_one_sweep_window s.nWinStandard rk s.window).nWindow
                 posRightEdge := 0, movingUp := true }
             else do_one_sweep_window s.nWinStandard rk s.window },
         { ranGlobal := decide ((s.sweeps + 1) % ng = 0)
           collapsedWindowSize := if (s.sweeps + 1) % ng = 0 then some 1 else none
           measured := s.thermalized || decide ((el : ℚ) > tt) }) := by
  cases hth : s.thermalized <;> by_cases hg : (s.sweeps + 1) % ng = 0 <;>
    simp [updateSweepIter, update_MC_parameters, global_updates_window, set_window_size,
      hth, hg, Except.map]

/-- C2 (counterexample).  At the moment the elapsed wall-clock time
equals `THERMALIZATION_TIME` exactly (here both are 3 seconds), the claimed
condition `elapsed ≥ THERMALIZATION_TIME` holds, yet the walker stays
un-thermalized: the source tests `time(NULL) - start_time >
thermalization_time` strictly. -/
theorem C2_counterexample_equal_time :
    (((3 : ℤ) : ℚ) ≥ (3 : ℚ)) ∧
    ((update_MC_parameters 1 5 3 0 3
        { sweeps := 0, thermalized := false, nWinStandard := 1, pertOrderHist := [],
          window := { nWindow := 1, posRightEdge := 0, movingUp := true } }).toOption.map
      DriverState.thermalized) = some false := by
  refine ⟨by norm_num, ?_⟩
  simp [update_MC_parameters, Except.toOption]

/-- C2 (amended).  In every successful sweep iteration, the thermalized
flag afterwards is the old flag OR-ed with the strict comparison
`elapsed > THERMALIZATION_TIME` (so it flips exactly when the wall clock
STRICTLY exceeds the threshold, and never reverts), and
`measure_every_step` is invoked in that sweep iff the flag is set at that
point. -/
theorem C2_amended_strict_threshold
    (F : ℕ) (smax : ℤ) (ng : ℕ) (tt po : ℚ) (rk : ℕ) (el : ℤ)
    (s s' : DriverState) (rep : SweepReport)
    (h : updateSweepIter F smax ng tt po rk el s = Except.ok (s', rep)) :
    s'.thermalized = (s.thermalized || decide ((el : ℚ) > tt)) ∧
    rep.measured = s'.thermalized := by
  rw [updateSweepIter_eq] at h
  obtain ⟨hA, hB⟩ := Prod.mk.injEq .. |>.mp (Except.ok.inj h)
  subst hA; subst hB
  exact ⟨rfl, rfl⟩

/-- C2 (witness).  A concrete sweep at 4 elapsed seconds against a
3-second thermalization time: the flag flips and the sweep measures. -/
theorem C2_amended_strict_threshold_witness :
    ({ sweeps := 1, thermalized := true, nWinStandard := 5, pertOrderHist := [0],
       window := { nWindow := 1, posRightEdge := 0, movingUp := true } } :
        DriverState).thermalized = (false || decide (((4 : ℤ) : ℚ) > (3 : ℚ))) ∧
    ({ ranGlobal := false, collapsedWindowSize := none, measured := true } :
        SweepReport).measured =
      ({ sweeps := 1, thermalized := true, nWinStandard := 5, pertOrderHist := [0],
         window := { nWindow := 1, posRightEdge := 0, movingUp := true } } :
          DriverState).thermalized :=
  C2_amended_strict_threshold 1 5 10 3 0 1 4
    { sweeps := 0, thermalized := false, nWinStandard := 1, pertOrderHist := [],
      window := { nWindow := 1, posRightEdge := 0, movingUp := true } }
    _ _
    (by norm_num [updateSweepIter, update_MC_parameters, do_one_sweep_window,
      move_window_to_next_position, set_window_size, pushPertOrder, minExpansionOrderAve,
      newNwinStandard, ratCeil, ratFloor, Except.map]; decide)

/-- C5.  In every successful sweep iteration, `global_updates` runs
exactly when the incremented sweep counter is a multiple of
`N_GLOBAL_UPDATES`; while it runs the sliding window is collapsed to a
single window, and on return the window size is restored to its value on
entry (right edge reset to `0`); in all other sweeps the window is exactly
what `do_one_sweep` left. -/
theorem C5_global_update_schedule
    (F : ℕ) (smax : ℤ) (ng : ℕ) (tt po : ℚ) (rk : ℕ) (el : ℤ)
    (s s' : DriverState) (rep : SweepReport)
    (h : updateSweepIter F smax ng tt po rk el s = Except.ok (s', rep)) :
    (rep.ranGlobal = true ↔ ng ∣ (s.sweeps + 1)) ∧
    (rep.ranGlobal = true →
      rep.collapsedWindowSize = some 1 ∧
      s'.window.nWindow = (do_one_sweep_window s.nWinStandard rk s.window).nWindow ∧
      s'.window.posRightEdge = 0) ∧
    (rep.ranGlobal = false →
      s'.window = do_one_sweep_window s.nWinStandard rk s.window) ∧
    (∀ w : WindowState,
      (global_updates_window w).1.nWindow = w.nWindow ∧
      (global_updates_window w).2 = 1) := by
  have hmod : (s.sweeps + 1) % ng = 0 ↔ ng ∣ (s.sweeps + 1) :=
    ⟨Nat.dvd_of_mod_eq_zero, Nat.mod_eq_zero_of_dvd⟩
  rw [updateSweepIter_eq] at h
  obtain ⟨hA, hB⟩ := Prod.mk.injEq .. |>.mp (Except.ok.inj h)
  subst hA; subst hB
  refine ⟨by simp [hmod], ?_, ?_, fun w => ⟨rfl, rfl⟩⟩ <;>
    by_cases hg : (s.sweeps + 1) % ng = 0 <;> simp [hg]

/-- C5 (witness).  A concrete sweep whose incremented counter is 10 with
`N_GLOBAL_UPDATES = 10`: the global update runs with the window collapsed to
a single window. -/
theorem C5_global_update_schedule_witness :
    ({ ranGlobal := true, collapsedWindowSize := some 1, measured := true } :
        SweepReport).collapsedWindowSize = some 1 :=
  ((C5_global_update_schedule 1 5 10 3 0 1 4
    { sweeps := 9, thermalized := true, nWinStandard := 1, pertOrderHist := [],
      window := { nWindow := 1, posRightEdge := 0, movingUp := true } }
    { sweeps := 10, thermalized := true, nWinStandard := 1, pertOrderHist := [],
      window := { nWindow := 1, posRightEdge := 0, movingUp := true } }
    { ranGlobal := true, collapsedWindowSize := some 1, measured := true }
    (by rw [updateSweepIter_eq]; norm_num [do_one_sweep_window,
      move_window_to_next_position, set_window_size])).2.1 rfl).1

/-- A C++ counting loop is `n` concatenated copies of its body. -/
theorem cppLoop_eq_flatMap (body : List UpdateEvent) (n : ℕ) :
    cppLoop body n = (List.range n).flatMap (fun _ => body) := by
  induction n with
  | zero => rfl
  | succ m ih => rw [cppLoop, ih, List.range_succ, List.flatMap_append]; simp

/-- A C++ counting loop over a singleton body is a `replicate`. -/
theorem cppLoop_singleton (x : UpdateEvent) (n : ℕ) :
    cppLoop [x] n = List.replicate n x := by
  induction n with
  | zero => rfl
  | succ m ih => rw [cppLoop, ih, List.replicate_succ' ]

/-- The length of `n` concatenated copies of a body. -/
theorem length_const_flatMap (body : List UpdateEvent) (n : ℕ) :
    ((List.range n).flatMap (fun _ => body)).length = n * body.length := by
  induction n with
  | zero => simp
  | succ m ih =>
      rw [List.range_succ, List.flatMap_append, List.length_append, ih]
      simp [Nat.succ_mul]

/-- C3.  For any drawn rank `k` in `{1, …, MULTI_PAIR_INS_REM}`, the
sweep body uses the effective window size `max(N_win_standard / k, 1)`,
executes exactly `max(4·n_win − 4, 1)` move iterations, and each iteration
is: per flavor, the off-diagonal k-pair update, the diagonal k-pair update
and the pair-flavor update; then `F·k` single-operator shifts; then one
worm-transition sub-step; then one window advance. -/
theorem C3_sweep_structure (F nWin k kmax : ℕ) (hk : 1 ≤ k) (hkmax : k ≤ kmax) :
    do_one_sweep_events F nWin k =
      (List.range (max (4 * max (nWin / k) 1 - 4) 1)).flatMap (fun _ =>
        (List.range F).flatMap (fun _ =>
          [UpdateEvent.insRemOffDiag k, UpdateEvent.insRemDiag k, UpdateEvent.pairFlavor])
        ++ List.replicate (F * k) UpdateEvent.singleOpShift
        ++ [UpdateEvent.wormTransition, UpdateEvent.advanceWindow]) ∧
    (do_one_sweep_events F nWin k).length =
      max (4 * max (nWin / k) 1 - 4) 1 * (3 * F + F * k + 2) := by
  have hbody :
      cppLoop [UpdateEvent.insRemOffDiag k, UpdateEvent.insRemDiag k,
          UpdateEvent.pairFlavor] F
        ++ cppLoop [UpdateEvent.singleOpShift] (F * k)
        ++ [UpdateEvent.wormTransition, UpdateEvent.advanceWindow] =
      (List.range F).flatMap (fun _ =>
          [UpdateEvent.insRemOffDiag k, UpdateEvent.insRemDiag k, UpdateEvent.pairFlavor])
        ++ List.replicate (F * k) UpdateEvent.singleOpShift
        ++ [UpdateEvent.wormTransition, UpdateEvent.advanceWindow] := by
    rw [cppLoop_eq_flatMap, cppLoop_singleton]
  have hmain : do_one_sweep_events F nWin k =
      (List.range (max (4 * max (nWin / k) 1 - 4) 1)).flatMap (fun _ =>
        (List.range F).flatMap (fun _ =>
          [UpdateEvent.insRemOffDiag k, UpdateEvent.insRemDiag k, UpdateEvent.pairFlavor])
        ++ List.replicate (F * k) UpdateEvent.singleOpShift
        ++ [UpdateEvent.wormTransition, UpdateEvent.advanceWindow]) := by
    rw [do_one_sweep_events, cppLoop_eq_flatMap, hbody]
  refine ⟨hmain, ?_⟩
  rw [hmain, length_const_flatMap]
  congr 1
  rw [List.length_append, List.length_append, length_const_flatMap]
  simp [Nat.mul_comm]

/-- C3 (witness).  With one flavor, `N_win_standard = 2` and rank `1`
drawn from `{1}`: the sweep is four iterations of the described block. -/
theorem C3_sweep_structure_witness :
    do_one_sweep_events 1 2 1 =
      (List.range (max (4 * max (2 / 1) 1 - 4) 1)).flatMap (fun _ =>
        (List.range 1).flatMap (fun _ =>
          [UpdateEvent.insRemOffDiag 1, UpdateEvent.insRemDiag 1, UpdateEvent.pairFlavor])
        ++ List.replicate (1 * 1) UpdateEvent.singleOpShift
        ++ [UpdateEvent.wormTransition, UpdateEvent.advanceWindow]) :=
  (C3_sweep_structure 1 2 1 1 (by decide) (by decide)).1

/-- With a single window, moving is a no-op. -/
theorem move_fixed_of_le_one {w : WindowState} (h : w.nWindow ≤ 1) :
    move_window_to_next_position w = w := by
  simp [move_window_to_next_position, h]

/-- Climbing run: while the right edge stays within range, moving up adds
one per step. -/
theorem move_run_up (n : ℕ) (hn : 2 ≤ n) :
    ∀ (j p : ℕ), p + j ≤ topPos n →
      move_window_to_next_position^[j] ⟨n, p, true⟩ = ⟨n, p + j, true⟩ := by
  intro j
  induction j with
  | zero => intro p _; simp
  | succ m ih =>
      intro p hp
      rw [Function.iterate_succ_apply]
      have hlt : p < topPos n := by omega
      have hmv : move_window_to_next_position ⟨n, p, true⟩ = ⟨n, p + 1, true⟩ := by
        simp [move_window_to_next_position, hlt]
        omega
      rw [hmv, ih (p + 1) (by omega)]
      congr 1
      omega

/-- Descending run: while the right edge stays positive, moving down
subtracts one per step. -/
theorem move_run_down (n : ℕ) (hn : 2 ≤ n) :
    ∀ (j p : ℕ), j ≤ p →
      move_window_to_next_position^[j] ⟨n, p, false⟩ = ⟨n, p - j, false⟩ := by
  intro j
  induction j with
  | zero => intro p _; simp
  | succ m ih =>
      intro p hp
      rw [Function.iterate_succ_apply]
      have hpos : 0 < p := by omega
      have hmv : move_window_to_next_position ⟨n, p, false⟩ = ⟨n, p - 1, false⟩ := by
        simp [move_window_to_next_position, hpos]
        omega
      rw [hmv, ih (p - 1) (by omega)]
      congr 1
      omega

/-- One full round trip of the window: starting from the canonical
right-edge position `0` in either direction, `2 · (2·n − 2)` moves return
the right edge to `0`. -/
theorem move_cycle (n : ℕ) (hn : 2 ≤ n) (d : Bool) :
    move_window_to_next_position^[2 * topPos n] ⟨n, 0, d⟩ = ⟨n, 0, false⟩ := by
  have htop : 1 ≤ topPos n := by unfold topPos; omega
  have hturn : move_window_to_next_position ⟨n, topPos n, true⟩ =
      ⟨n, topPos n - 1, false⟩ := by
    simp [move_window_to_next_position]
    omega
  cases d
  · -- starting downward at 0: the first move bounces up
    have hbounce : move_window_to_next_position ⟨n, 0, false⟩ = ⟨n, 1, true⟩ := by
      simp [move_window_to_next_position]
      omega
    have hsplit : 2 * topPos n = (topPos n - 1) + (1 + ((topPos n - 1) + 1)) := by omega
    rw [hsplit, Function.iterate_add_apply, Function.iterate_add_apply,
      Function.iterate_add_apply, Function.iterate_one, hbounce,
      move_run_up n hn (topPos n - 1) 1 (by omega)]
    have h1 : 1 + (topPos n - 1) = topPos n := by omega
    rw [h1, hturn, move_run_down n hn (topPos n - 1) (topPos n - 1) le_rfl]
    congr 1
    omega
  · -- starting upward at 0
    have hsplit : 2 * topPos n = (topPos n - 1) + (1 + topPos n) := by omega
    rw [hsplit, Function.iterate_add_apply, Function.iterate_add_apply,
      move_run_up n hn (topPos n) 0 (by omega), Function.iterate_one]
    simp only [Nat.zero_add]
    rw [hturn, move_run_down n hn (topPos n - 1) (topPos n - 1) le_rfl]
    congr 1
    omega

/-- C4.  A sweep entered with the sliding window at its canonical
right-edge position `0` returns it to position `0`: the
`max(4·n_win − 4, 1)` window moves are exactly one full round trip (or a
no-op for a single window), so the asserted invariant at both ends of
`do_one_sweep` holds. -/
theorem C4_window_right_edge (nWinStandard rankK : ℕ) (w : WindowState)
    (h : w.posRightEdge = 0) :
    (do_one_sweep_window nWinStandard rankK w).posRightEdge = 0 := by
  have hmain : ∀ c : ℕ, 1 ≤ c → ∀ v : WindowState, v.nWindow = c → v.posRightEdge = 0 →
      (move_window_to_next_position^[max (4 * c - 4) 1] v).posRightEdge = 0 := by
    intro c hc v hvn hvp
    rcases Nat.lt_or_ge c 2 with hclt | hcge
    · have hle : v.nWindow ≤ 1 := by omega
      rw [Function.iterate_fixed (move_fixed_of_le_one hle)]
      exact hvp
    · have hnum : max (4 * c - 4) 1 = 2 * topPos c := by unfold topPos; omega
      have hv : v = ⟨c, 0, v.movingUp⟩ := by
        cases v
        simp_all
      rw [hnum, hv, move_cycle c hcge v.movingUp]
  simp only [do_one_sweep_window]
  split
  · exact hmain _ (le_max_right _ _) _ rfl rfl
  · next hres =>
      exact hmain _ (le_max_right _ _) _ (Decidable.not_not.mp hres).symm h

/-- C4 (witness).  `N_win_standard = 6`, rank `2`: the window is resized
to 3 windows and the 8 moves of the sweep return the right edge to `0`. -/
theorem C4_window_right_edge_witness :
    (do_one_sweep_window 6 2 ⟨1, 0, true⟩).posRightEdge = 0 :=
  C4_window_right_edge 6 2 ⟨1, 0, true⟩ rfl

/-- Position-wise view of `get_operators`: the returned vector is the map of
`wormOpAt` over the positions `0, …, 2·NumTimes − 1`. -/
theorem get_operators_eq_map (numTimes : ℕ) (times : ℕ → ℚ) (flavors : ℕ → ℕ) :
    get_operators numTimes times flavors =
      (List.range (2 * numTimes)).map (wormOpAt times flavors) := by
  induction numTimes with
  | zero => rfl
  | succ m ih =>
      have hL : get_operators (m + 1) times flavors =
          get_operators m times flavors ++
            [ { ot := { time := times m, small_idx := 200 * ((m : ℤ) + 1) }
                kind := .CREATION_OP, flavor := flavors (2 * m) },
              { ot := { time := times m, small_idx := 100 * ((m : ℤ) + 1) }
                kind := .ANNIHILATION_OP, flavor := flavors (2 * m + 1) } ] := by
        simp [get_operators, List.range_succ]
      have h2 : 2 * (m + 1) = (2 * m + 1) + 1 := by ring
      have hR : (List.range (2 * (m + 1))).map (wormOpAt times flavors) =
          (List.range (2 * m)).map (wormOpAt times flavors) ++
            [wormOpAt times flavors (2 * m), wormOpAt times flavors (2 * m + 1)] := by
        rw [h2, List.range_succ, List.map_append, List.range_succ, List.map_append]
        simp
      have e0 : (2 * m) % 2 = 0 := by omega
      have e1 : 2 * m / 2 = m := by omega
      have e2 : ¬((2 * m + 1) % 2 = 0) := by omega
      have e3 : (2 * m + 1) / 2 = m := by omega
      rw [hL, hR, ih]
      simp [wormOpAt, e0, e1, e2, e3]

/-- C8 (counterexample).  `CorrelationWorm<2>` with both time points
equal: the creation operator of pair 0 (tie-breaker `200·1`) and the
annihilation operator of pair 1 (tie-breaker `100·2`) are distinct returned
operators sharing the same `(time, tie_breaker)`, refuting the claimed
no-sharing consequence. -/
theorem C8_counterexample_equal_times :
    (get_operators 2 c8timesEqual c8flavors).length = 2 * 2 ∧
    (get_operators 2 c8timesEqual c8flavors)[0]? ≠
      (get_operators 2 c8timesEqual c8flavors)[3]? ∧
    ((get_operators 2 c8timesEqual c8flavors)[0]?).map opTimeKey =
      ((get_operators 2 c8timesEqual c8flavors)[3]?).map opTimeKey := by
  norm_num [get_operators, c8timesEqual, c8flavors, opTimeKey, List.range_succ]

/-- C8 (amended).  `get_operators` returns exactly `2·NumTimes`
operators; the pair at time index `i` carries tie-breakers `200·(i+1)` (on
the creation operator) and `100·(i+1)` (on the annihilation operator); and
PROVIDED the time points are pairwise distinct, no two returned operators
share the same `(time, tie_breaker)`. -/
theorem C8_amended_tie_breakers (numTimes : ℕ) (times : ℕ → ℚ) (flavors : ℕ → ℕ)
    (hinj : ∀ i j, i < numTimes → j < numTimes → times i = times j → i = j) :
    (get_operators numTimes times flavors).length = 2 * numTimes ∧
    (∀ i, i < numTimes →
      (get_operators numTimes times flavors)[2 * i]? =
        some { ot := { time := times i, small_idx := 200 * ((i : ℤ) + 1) }
               kind := .CREATION_OP, flavor := flavors (2 * i) } ∧
      (get_operators numTimes times flavors)[2 * i + 1]? =
        some { ot := { time := times i, small_idx := 100 * ((i : ℤ) + 1) }
               kind := .ANNIHILATION_OP, flavor := flavors (2 * i + 1) }) ∧
    (∀ a b, a < 2 * numTimes → b < 2 * numTimes → a ≠ b →
      ((get_operators numTimes times flavors)[a]?).map opTimeKey ≠
      ((get_operators numTimes times flavors)[b]?).map opTimeKey) := by
  rw [get_operators_eq_map]
  refine ⟨by simp, ?_, ?_⟩
  · intro i hi
    have e0 : (2 * i) % 2 = 0 := by omega
    have e1 : 2 * i / 2 = i := by omega
    have e2 : ¬((2 * i + 1) % 2 = 0) := by omega
    have e3 : (2 * i + 1) / 2 = i := by omega
    constructor <;>
      · rw [List.getElem?_map, List.getElem?_range (by omega)]
        simp [wormOpAt, e0, e1, e2, e3]
  · intro a b ha hb hne
    rw [List.getElem?_map, List.getElem?_map, List.getElem?_range ha,
      List.getElem?_range hb]
    intro heq
    have heq' := Option.some.inj heq
    have hq : times (a / 2) = times (b / 2) → a / 2 = b / 2 :=
      hinj (a / 2) (b / 2) (by omega) (by omega)
    by_cases pa : a % 2 = 0 <;> by_cases pb : b % 2 = 0 <;>
      · simp only [wormOpAt, opTimeKey, pa, pb, if_true, if_false, reduceIte,
          Prod.mk.injEq] at heq'
        obtain ⟨ht, htie⟩ := heq'
        have hqq := hq ht
        omega

/-- C8 (witness).  With the two distinct times `0` and `1` the amended
statement applies; the worm returns four operators. -/
theorem C8_amended_tie_breakers_witness :
    (get_operators 2 c8timesDistinct c8flavors).length = 2 * 2 :=
  (C8_amended_tie_breakers 2 c8timesDistinct c8flavors
    (fun i j _ _ h => Nat.cast_injective h)).1

end CTHYB
